import Mathlib

/-!
Shallow embedding of the seat-data acquisition and aggregation pipeline of
`src/dashboard/services/copilot-seat-service.ts`.

Modelling conventions:
* Instants are integers (milliseconds since the epoch); the JavaScript
  expression `d.setDate(d.getDate() - 30)` is modelled as subtracting
  `30 * msPerDay` from the reference instant.
* JavaScript `undefined`/`null` fields are modelled with `Option`.
* The asynchronous collaborators (GitHub membership/team-listing endpoints,
  the Cosmos store) are modelled as explicit parameters: a `TeamApi` record of
  pure lookup functions (a failed lookup contributes `[]`/`none`, matching the
  code's catch-and-continue handling), a `Bool` for whether the environment
  configuration resolves, and the store's query result passed in as a value.
* Counts are natural numbers.
-/

namespace CopilotSeats

/-- One day in milliseconds, the unit of the 30-day activity window. -/
def msPerDay : Int := 86400000

/-- `assignee` of a seat: the user identity; `login` is the deduplication key. -/
structure Assignee where
  login : String
  deriving Repr, DecidableEq

/-- `assigning_team` of a seat / an element of the teams listing
(`GitHubTeam`): `name`, optional numeric `id`, optional `parent` team name. -/
structure TeamRef where
  name : String
  id : Option Int := none
  parent : Option String := none
  deriving Repr, DecidableEq

/-- One `SeatAssignment`; only the fields the service logic reads are kept:
`assignee`, `assigning_team` and `last_activity_at`. -/
structure SeatAssignment where
  assignee : Assignee
  assigning_team : Option TeamRef := none
  last_activity_at : Option Int := none
  deriving Repr, DecidableEq

/-- `CopilotSeatsData`: one page-record.  Fields that the code can leave
`undefined` (via the `{...} as CopilotSeatsData` cast) or `null` are `Option`. -/
structure CopilotSeatsData where
  enterprise : Option String := none
  organization : Option String := none
  seats : List SeatAssignment := []
  total_seats : Nat := 0
  total_active_seats : Option Nat := none
  page : Option Nat := none
  has_next_page : Option Bool := none
  last_update : Option String := none
  date : Option String := none
  id : Option String := none
  deriving Repr, DecidableEq

/-- The 30-day activity-window predicate, the embedding of the filter callback
`if (!seat.last_activity_at) return false; ... return lastActivityDate >= thirtyDaysAgo`
that the service repeats verbatim at each place an active count is computed. -/
def isActiveSeat (seat : SeatAssignment) (now : Int) : Bool :=
  match seat.last_activity_at with
  | none => false
  | some t => decide (now - 30 * msPerDay ≤ t)

/-- `.filter(activePredicate).length` — the active-seat count of a seat list. -/
def countActiveSeats (seats : List SeatAssignment) (now : Int) : Nat :=
  (seats.filter (fun s => isActiveSeat s now)).length

/-- The external lookups used by the tier-2 team-membership fallback.
`members t` is the list of logins that the paginated members endpoint yields
for team `t` (a failed request yields `[]`, matching the `catch`/`break`
handling in `getTeamMembers`); `orgTeams` is the organization teams listing
(`none` models a failed request in `getChildTeamMembers`). -/
structure TeamApi where
  members : String → List String
  orgTeams : Option (List TeamRef)

/-- Embedding of `getChildTeamMembers`: the logins contributed by the child
teams of `parentTeamName`, including the hardcoded special case mapping
`Birdeye_team` to `Insights_team` and `labs_team`. -/
def childTeamMembers (api : TeamApi) (parentTeamName : String) : List String :=
  if parentTeamName = "Birdeye_team" then
    api.members "Insights_team" ++ api.members "labs_team"
  else
    match api.orgTeams with
    | none => []
    | some allTeams =>
        (allTeams.filter (fun t => t.parent == some parentTeamName)).flatMap
          (fun t => api.members t.name)

/-- The membership set accumulated by the tier-2 fallback loop of
`filterSeatsByTeam`: direct members plus child-team members of every requested
team (the JavaScript `Set<string>` is modelled as a list queried with
`contains`). -/
def resolvedMembers (api : TeamApi) (teamFilter : List String) : List String :=
  teamFilter.flatMap (fun teamName =>
    api.members teamName ++ childTeamMembers api teamName)

/-- The tier-1 predicate `seat.assigning_team?.name && teamFilter.includes(seat.assigning_team.name)`.
JavaScript truthiness makes an empty-string team name fail the first conjunct. -/
def seatHasMatchingTeam (teamFilter : List String) (seat : SeatAssignment) : Bool :=
  match seat.assigning_team with
  | none => false
  | some t => (!(t.name == "")) && teamFilter.contains t.name

/-- Embedding of `filterSeatsByTeam`: tier 1 keeps the seats whose
`assigning_team.name` is truthy and requested; only when that yields nothing
does tier 2 filter by the resolved membership set (when the environment
configuration resolves), and `[]` is returned when all else fails. -/
def filterSeatsByTeam (envOk : Bool) (api : TeamApi)
    (seats : List SeatAssignment) (teamFilter : List String) : List SeatAssignment :=
  let seatsWithTeams := seats.filter (seatHasMatchingTeam teamFilter)
  if 0 < seatsWithTeams.length then
    seatsWithTeams
  else if envOk then
    seats.filter (fun seat => (resolvedMembers api teamFilter).contains seat.assignee.login)
  else
    []

/-- The guarded filtering step shared by both branches of `aggregateSeatsData`:
`if (teamFilter && teamFilter.length > 0) filteredSeats = await filterSeatsByTeam(...)`. -/
def applyTeamFilter (envOk : Bool) (api : TeamApi)
    (seats : List SeatAssignment) (teamFilter : Option (List String)) : List SeatAssignment :=
  match teamFilter with
  | none => seats
  | some tf => if 0 < tf.length then filterSeatsByTeam envOk api seats tf else seats

/-- One step of the insertion-ordered `Map<string, SeatAssignment>` used to
deduplicate: `if (!uniqueSeatsMap.has(login)) uniqueSeatsMap.set(login, seat)`. -/
def dedupStep (acc : List SeatAssignment) (seat : SeatAssignment) : List SeatAssignment :=
  if acc.any (fun s => s.assignee.login == seat.assignee.login) then acc
  else acc ++ [seat]

/-- `Array.from(uniqueSeatsMap.values())`: deduplication by `assignee.login`,
first occurrence kept, insertion order preserved. -/
def dedupByLogin (seats : List SeatAssignment) : List SeatAssignment :=
  seats.foldl dedupStep []

/-- The `{ total_seats: 0, total_active_seats: 0, seats: [] } as CopilotSeatsData`
result returned by `aggregateSeatsData` on empty input (all other fields are
left `undefined` by the cast). -/
def emptyAggregate : CopilotSeatsData :=
  { seats := [], total_seats := 0, total_active_seats := some 0 }

/-- The backwards-compatibility backfill at the top of `aggregateSeatsData`:
`data[0].total_active_seats` is assigned in place when it is `null`/`undefined`.
The function returns the input array as the mutation leaves it. -/
def backfillFirst (now : Int) (data : List CopilotSeatsData) : List CopilotSeatsData :=
  match data with
  | [] => []
  | d :: rest =>
    match d.total_active_seats with
    | some _ => d :: rest
    | none => { d with total_active_seats := some (countActiveSeats d.seats now) } :: rest

/-- Embedding of `aggregateSeatsData`.  The returned pair is
(the aggregated result, the state of the input array after the call) — the
second component records the in-place backfill of `data[0].total_active_seats`. -/
def aggregateSeatsData (envOk : Bool) (api : TeamApi) (now : Int)
    (data : List CopilotSeatsData) (teamFilter : Option (List String)) :
    CopilotSeatsData × List CopilotSeatsData :=
  match backfillFirst now data with
  | [] => (emptyAggregate, [])
  | [d] =>
      let filteredSeats := applyTeamFilter envOk api d.seats teamFilter
      ({ d with
          total_seats := filteredSeats.length,
          total_active_seats := some (countActiveSeats filteredSeats now),
          seats := filteredSeats },
       [d])
  | d :: rest =>
      let allSeats := (d :: rest).flatMap CopilotSeatsData.seats
      let filteredSeats := applyTeamFilter envOk api allSeats teamFilter
      let seats := dedupByLogin filteredSeats
      ({ enterprise := d.enterprise,
         organization := d.organization,
         total_seats := seats.length,
         total_active_seats := some (countActiveSeats seats now),
         page := d.page,
         has_next_page := some false,
         last_update := d.last_update,
         date := d.date,
         id := d.id,
         seats := seats },
       d :: rest)

/-- The structured success/error result (`ServerActionResponse`). -/
inductive ServerActionResponse (α : Type) where
  | ok (response : α)
  | error (messages : List String)
  deriving Repr, DecidableEq

/-- Whether a response is the error variant. -/
def ServerActionResponse.isError {α : Type} : ServerActionResponse α → Bool
  | .ok _ => false
  | .error _ => true

/-- Embedding of `getCopilotSeatsFromDatabase`, over the store query's result.
The JavaScript guard `data.status !== "OK" || !data.response` reduces to the
error case: on the success path `data.response` is the resources array, and an
array — even an empty one — is truthy. -/
def getCopilotSeatsFromDatabase (envOk : Bool) (api : TeamApi) (now : Int)
    (queryResult : ServerActionResponse (List CopilotSeatsData))
    (team : List String) : ServerActionResponse CopilotSeatsData :=
  match queryResult with
  | .error _ => .error ["No data found"]
  | .ok records => .ok (aggregateSeatsData envOk api now records (some team)).1

/-- Embedding of the `getCopilotSeats` data path: it returns the result of
`getCopilotSeatsFromDatabase` unchanged (`const result = await ...; return result`). -/
def getCopilotSeats (envOk : Bool) (api : TeamApi) (now : Int)
    (queryResult : ServerActionResponse (List CopilotSeatsData))
    (team : List String) : ServerActionResponse CopilotSeatsData :=
  getCopilotSeatsFromDatabase envOk api now queryResult team

/-- Embedding of the `getCopilotSeatsManagement` data path: an error from the
underlying retrieval is swallowed into a success carrying the empty object
(`{} as CopilotSeatsData`, modelled as `none`). -/
def getCopilotSeatsManagement (envOk : Bool) (api : TeamApi) (now : Int)
    (queryResult : ServerActionResponse (List CopilotSeatsData))
    (team : List String) : ServerActionResponse (Option CopilotSeatsData) :=
  match getCopilotSeatsFromDatabase envOk api now queryResult team with
  | .ok d => .ok (some d)
  | .error _ => .ok none

/-- One successful page response of the seat-listing endpoint inside
`getDataFromApi`: the parsed body plus whether its `Link` header carries a
`next` relation. -/
structure ApiSeatsPage where
  seats : List SeatAssignment
  total_seats : Nat
  hasNext : Bool
  deriving Repr, DecidableEq

/-- The `do...while` fetch loop of `getDataFromApi` on its success path, fed
the sequence of page responses the endpoint yields: each response becomes one
record with a 1-based `page` counter and `has_next_page` from its link header,
and the loop stops after the first response without a `next` relation.  The
enterprise and organization branches of the source are textually identical up
to the scope field, so both are covered by the `ent`/`org` parameters. -/
def buildSeatRecords (ent org : Option String) (pages : List ApiSeatsPage)
    (pageCount : Nat) : List CopilotSeatsData :=
  match pages with
  | [] => []
  | p :: rest =>
    let record : CopilotSeatsData :=
      { enterprise := ent,
        organization := org,
        seats := p.seats,
        total_seats := p.total_seats,
        total_active_seats := some 0,
        page := some pageCount,
        has_next_page := some p.hasNext,
        last_update := none,
        date := some "",
        id := some "" }
    if p.hasNext then record :: buildSeatRecords ent org rest (pageCount + 1)
    else [record]

/-- The success path of `getDataFromApi`: after the fetch loop, every page's
`total_active_seats` is overwritten with the global active count across the
seats of all pages combined. -/
def getDataFromApiRecords (ent org : Option String) (pages : List ApiSeatsPage)
    (now : Int) : List CopilotSeatsData :=
  let records := buildSeatRecords ent org pages 1
  let allActiveSeatsCount :=
    countActiveSeats (records.flatMap CopilotSeatsData.seats) now
  records.map (fun r => { r with total_active_seats := some allActiveSeatsCount })

/-- JavaScript truthiness of a team's `id` (`t.id ? ... : ...`):
present and nonzero. -/
def teamIdTruthy (t : TeamRef) : Bool :=
  match t.id with
  | none => false
  | some i => !(i == 0)

/-- The dedup predicate of `getAllCopilotSeatsTeamsFromApi`:
`t.id ? t.id === team.id : t.name === team.name`. -/
def teamDedupMatch (t team : TeamRef) : Bool :=
  if teamIdTruthy t then t.id == team.id else t.name == team.name

/-- `teams.filter((team, index, self) => index === self.findIndex(t => ...))`:
keep a team exactly when the first team matching it is itself. -/
def uniqueTeams (teams : List TeamRef) : List TeamRef :=
  (teams.enum.filter
      (fun p => teams.findIdx (fun t => teamDedupMatch t p.2) == p.1)).map Prod.snd

/-- The team list collected by `getAllCopilotSeatsTeamsFromApi` before
deduplication: the truthy `assigning_team` of every seat of every fetched
page, and — only when that yields nothing — the organization teams-listing
fallback (`fallbackTeams`; the enterprise branch skips the fallback, and a
failed fallback request leaves the list empty). -/
def collectedTeams (pages : List (List SeatAssignment)) (fallbackTeams : List TeamRef)
    (isEnterprise : Bool) : List TeamRef :=
  let teams := pages.flatMap (fun seats => seats.filterMap SeatAssignment.assigning_team)
  if teams.isEmpty then (if isEnterprise then [] else fallbackTeams) else teams

/-- The success path of `getAllCopilotSeatsTeamsFromApi`: collect, then remove
duplicates based on team id or name.  No sorting is performed on this path. -/
def getAllCopilotSeatsTeamsFromApi (pages : List (List SeatAssignment))
    (fallbackTeams : List TeamRef) (isEnterprise : Bool) : List TeamRef :=
  uniqueTeams (collectedTeams pages fallbackTeams isEnterprise)

/-- Lexicographic order on character sequences, by code point. -/
def lexLe : List Char → List Char → Bool
  | [], _ => true
  | _ :: _, [] => false
  | a :: as, b :: bs =>
      if a.toNat < b.toNat then true
      else if b.toNat < a.toNat then false
      else lexLe as bs

/-- The comparator `(a.name || "").localeCompare(b.name || "")`, modelled as
code-point lexicographic order (so the empty name sorts first); `name` is a
required string in the model, making the `|| ""` guard the identity. -/
def nameLeb (a b : String) : Bool := lexLe a.data b.data

/-- One insertion step of the by-name sort. -/
def insertTeamByName (t : TeamRef) : List TeamRef → List TeamRef
  | [] => [t]
  | u :: us => if nameLeb t.name u.name then t :: u :: us else u :: insertTeamByName t us

/-- `resources.sort((a, b) => (a.name || "").localeCompare(b.name || ""))`,
modelled as a stable insertion sort by name. -/
def sortTeamsByName (l : List TeamRef) : List TeamRef :=
  l.foldr insertTeamByName []

/-- The success path of `getAllCopilotSeatsTeamsFromDatabase`, over the
distinct `assigning_team` values the store's `SELECT DISTINCT` query returns:
it only sorts them by name. -/
def getAllCopilotSeatsTeamsFromDatabase (resources : List TeamRef) : List TeamRef :=
  sortTeamsByName resources

/-- Boolean check that a team list is ascending by name. -/
def sortedByName : List TeamRef → Bool
  | [] => true
  | [_] => true
  | a :: b :: rest => nameLeb a.name b.name && sortedByName (b :: rest)

/-- Boolean check that a seat list has pairwise-distinct `assignee.login`. -/
def pairwiseDistinctLogins : List SeatAssignment → Bool
  | [] => true
  | s :: rest =>
      (!rest.any (fun t => t.assignee.login == s.assignee.login)) &&
        pairwiseDistinctLogins rest

/-! Concrete fixtures used by counterexamples and witnesses. -/

/-- A collaborator whose every lookup fails (members `[]`, listing `none`). -/
def nullTeamApi : TeamApi := { members := fun _ => [], orgTeams := none }

/-- A team named `X`. -/
def teamX : TeamRef := { name := "X" }

/-- A seat assigned through team `X`, active at instant 0. -/
def seatTeamX : SeatAssignment :=
  { assignee := { login := "ua" }, assigning_team := some teamX, last_activity_at := some 0 }

/-- A seat with no assigning team. -/
def seatNoTeam : SeatAssignment := { assignee := { login := "ub" } }

/-- A seat whose assigning team has the empty string as its name. -/
def emptyNameSeat : SeatAssignment :=
  { assignee := { login := "uc" }, assigning_team := some { name := "" } }

/-- Two seats sharing the login `dup` (one active at instant 0, one inactive). -/
def dupSeat1 : SeatAssignment := { assignee := { login := "dup" }, last_activity_at := some 0 }

/-- Second seat with login `dup`. -/
def dupSeat2 : SeatAssignment := { assignee := { login := "dup" } }

/-- A single page-record carrying the duplicated login. -/
def dupRecord : CopilotSeatsData :=
  { seats := [dupSeat1, dupSeat2], total_seats := 2, total_active_seats := some 1,
    page := some 1, has_next_page := some false, date := some "2024-01-01", id := some "doc1" }

/-- A legacy record lacking `total_active_seats`. -/
def legacyRecord : CopilotSeatsData :=
  { seats := [dupSeat1], total_seats := 1, total_active_seats := none, page := some 1 }

/-- Team `b` (id 1), listed before team `a` (id 2) in the fixtures. -/
def teamNB : TeamRef := { name := "b", id := some 1 }

/-- Team `a` (id 2). -/
def teamNA : TeamRef := { name := "a", id := some 2 }

/-- A seat assigned through team `b`. -/
def seatTeamB : SeatAssignment := { assignee := { login := "u1" }, assigning_team := some teamNB }

/-- A seat assigned through team `a`. -/
def seatTeamA2 : SeatAssignment := { assignee := { login := "u2" }, assigning_team := some teamNA }

/-- A single successful page response used by the Seat Fetcher witness. -/
def apiPage1 : ApiSeatsPage := { seats := [dupSeat1], total_seats := 1, hasNext := false }

/-- The record the Seat Fetcher builds from `apiPage1` at reference instant 0. -/
def apiRecord1 : CopilotSeatsData :=
  { enterprise := some "corp", organization := none, seats := [dupSeat1],
    total_seats := 1, total_active_seats := some 1, page := some 1,
    has_next_page := some false, last_update := none, date := some "", id := some "" }

/-! Helper lemmas. -/

/-- The post-call state of `aggregateSeatsData`'s input array is exactly the
backfilled array. -/
theorem aggregateSeatsData_snd (envOk : Bool) (api : TeamApi) (now : Int)
    (data : List CopilotSeatsData) (tf : Option (List String)) :
    (aggregateSeatsData envOk api now data tf).2 = backfillFirst now data := by
  rcases h : backfillFirst now data with _ | ⟨d, rest⟩
  · simp [aggregateSeatsData, h]
  · cases rest <;> simp [aggregateSeatsData, h]

/-- Closed form of the multi-record branch of `aggregateSeatsData`. -/
theorem aggregate_multi_eq (envOk : Bool) (api : TeamApi) (now : Int)
    (d0 d1 : CopilotSeatsData) (rest : List CopilotSeatsData) (tf : Option (List String)) :
    (aggregateSeatsData envOk api now (d0 :: d1 :: rest) tf).1 =
      { enterprise := d0.enterprise,
        organization := d0.organization,
        total_seats := (dedupByLogin (applyTeamFilter envOk api
          ((d0 :: d1 :: rest).flatMap CopilotSeatsData.seats) tf)).length,
        total_active_seats := some (countActiveSeats (dedupByLogin (applyTeamFilter envOk api
          ((d0 :: d1 :: rest).flatMap CopilotSeatsData.seats) tf)) now),
        page := d0.page,
        has_next_page := some false,
        last_update := d0.last_update,
        date := d0.date,
        id := d0.id,
        seats := dedupByLogin (applyTeamFilter envOk api
          ((d0 :: d1 :: rest).flatMap CopilotSeatsData.seats) tf) } := by
  cases h : d0.total_active_seats with
  | some n => simp [aggregateSeatsData, backfillFirst, h]
  | none => simp [aggregateSeatsData, backfillFirst, h]

/-- `pairwiseDistinctLogins` agrees with `List.Pairwise` on distinct logins. -/
theorem pairwiseDistinctLogins_iff (l : List SeatAssignment) :
    pairwiseDistinctLogins l = true ↔
      List.Pairwise (fun a b => a.assignee.login ≠ b.assignee.login) l := by
  induction l with
  | nil => simp [pairwiseDistinctLogins]
  | cons s rest ih =>
      simp only [pairwiseDistinctLogins, Bool.and_eq_true, Bool.not_eq_true',
        List.any_eq_false, beq_iff_eq, ih, List.pairwise_cons]
      constructor
      · rintro ⟨h1, h2⟩
        exact ⟨fun b hb he => h1 b hb he.symm, h2⟩
      · rintro ⟨h1, h2⟩
        exact ⟨fun t ht he => h1 t ht he.symm, h2⟩

/-- The dedup fold preserves pairwise-distinct logins of the accumulator. -/
theorem pairwise_dedupFold (l acc : List SeatAssignment)
    (hacc : List.Pairwise (fun a b => a.assignee.login ≠ b.assignee.login) acc) :
    List.Pairwise (fun a b => a.assignee.login ≠ b.assignee.login)
      (l.foldl dedupStep acc) := by
  induction l generalizing acc with
  | nil => exact hacc
  | cons t l ih =>
      rw [List.foldl_cons]
      apply ih
      unfold dedupStep
      by_cases h : acc.any (fun s => s.assignee.login == t.assignee.login) = true
      · rw [if_pos h]; exact hacc
      · rw [if_neg h]
        refine List.pairwise_append.mpr ⟨hacc, by simp, ?_⟩
        intro a ha b hb
        have hb' : b = t := by simpa using hb
        subst hb'
        intro heq
        exact h (List.any_eq_true.mpr ⟨a, ha, by simp [heq]⟩)

/-- Every element the dedup fold emits beyond the accumulator is the first
occurrence of its login in the processed list. -/
theorem mem_dedupFold (l : List SeatAssignment) (acc : List SeatAssignment)
    (s : SeatAssignment) (h : s ∈ l.foldl dedupStep acc) :
    s ∈ acc ∨ ((∀ a ∈ acc, a.assignee.login ≠ s.assignee.login)
      ∧ l.find? (fun u => u.assignee.login == s.assignee.login) = some s) := by
  induction l generalizing acc with
  | nil => exact Or.inl h
  | cons t l ih =>
      rw [List.foldl_cons] at h
      rcases ih (dedupStep acc t) h with hmem | ⟨hnone, hfind⟩
      · unfold dedupStep at hmem
        by_cases hany : acc.any (fun u => u.assignee.login == t.assignee.login) = true
        · rw [if_pos hany] at hmem
          exact Or.inl hmem
        · rw [if_neg hany] at hmem
          rcases List.mem_append.mp hmem with hmem' | hmem'
          · exact Or.inl hmem'
          · have hst : s = t := by simpa using hmem'
            subst hst
            refine Or.inr ⟨?_, ?_⟩
            · intro a ha heq
              exact hany (List.any_eq_true.mpr ⟨a, ha, by simp [heq]⟩)
            · exact List.find?_cons_of_pos _ (by simp)
      · unfold dedupStep at hnone
        by_cases hany : acc.any (fun u => u.assignee.login == t.assignee.login) = true
        · rw [if_pos hany] at hnone
          refine Or.inr ⟨hnone, ?_⟩
          have hts : t.assignee.login ≠ s.assignee.login := by
            intro he
            obtain ⟨a, ha, hpa⟩ := List.any_eq_true.mp hany
            have hat : a.assignee.login = t.assignee.login := by simpa using hpa
            exact hnone a ha (hat.trans he)
          rw [List.find?_cons_of_neg _ (by simp [hts])]
          exact hfind
        · rw [if_neg hany] at hnone
          have hacc' : ∀ a ∈ acc, a.assignee.login ≠ s.assignee.login :=
            fun a ha => hnone a (List.mem_append.mpr (Or.inl ha))
          have hts : t.assignee.login ≠ s.assignee.login :=
            hnone t (List.mem_append.mpr (Or.inr (by simp)))
          refine Or.inr ⟨hacc', ?_⟩
          rw [List.find?_cons_of_neg _ (by simp [hts])]
          exact hfind

/-- Overwriting `total_active_seats` on every record leaves the flattened seat
sequence unchanged. -/
theorem flatMap_seats_map_tas (records : List CopilotSeatsData) (c : Nat) :
    ((records.map (fun r => { r with total_active_seats := some c })).flatMap
        CopilotSeatsData.seats)
      = records.flatMap CopilotSeatsData.seats := by
  induction records with
  | nil => rfl
  | cons r rs ih => simp [ih]

/-! Theorems. -/

/-- C1: for every input of two or more page-records, the aggregated result's
seat list is the flattened seats in input order, team-filtered when a
non-empty filter is supplied, deduplicated by `assignee.login` (first
occurrence kept); `total_seats` is that list's length, `total_active_seats`
the activity-window count over it, `has_next_page` is false, and the scope,
`page`, `last_update`, `date` and `id` fields come from the first record. -/
theorem aggregate_multi_spec (envOk : Bool) (api : TeamApi) (now : Int)
    (d0 d1 : CopilotSeatsData) (rest : List CopilotSeatsData)
    (tf : Option (List String)) :
    ((aggregateSeatsData envOk api now (d0 :: d1 :: rest) tf).1.seats
        = dedupByLogin (applyTeamFilter envOk api
            ((d0 :: d1 :: rest).flatMap CopilotSeatsData.seats) tf))
    ∧ (aggregateSeatsData envOk api now (d0 :: d1 :: rest) tf).1.total_seats
        = (aggregateSeatsData envOk api now (d0 :: d1 :: rest) tf).1.seats.length
    ∧ (aggregateSeatsData envOk api now (d0 :: d1 :: rest) tf).1.total_active_seats
        = some (countActiveSeats
            (aggregateSeatsData envOk api now (d0 :: d1 :: rest) tf).1.seats now)
    ∧ (aggregateSeatsData envOk api now (d0 :: d1 :: rest) tf).1.has_next_page = some false
    ∧ (aggregateSeatsData envOk api now (d0 :: d1 :: rest) tf).1.enterprise = d0.enterprise
    ∧ (aggregateSeatsData envOk api now (d0 :: d1 :: rest) tf).1.organization = d0.organization
    ∧ (aggregateSeatsData envOk api now (d0 :: d1 :: rest) tf).1.page = d0.page
    ∧ (aggregateSeatsData envOk api now (d0 :: d1 :: rest) tf).1.last_update = d0.last_update
    ∧ (aggregateSeatsData envOk api now (d0 :: d1 :: rest) tf).1.date = d0.date
    ∧ (aggregateSeatsData envOk api now (d0 :: d1 :: rest) tf).1.id = d0.id := by
  rw [aggregate_multi_eq]
  exact ⟨rfl, rfl, rfl, rfl, rfl, rfl, rfl, rfl, rfl, rfl⟩

/-- C3 counterexample: a single-record input whose seat list repeats a login
is returned with the duplicate intact — the single-record branch of
`aggregateSeatsData` never deduplicates. -/
theorem singleRecord_dedup_counterexample :
    (aggregateSeatsData true nullTeamApi 0 [dupRecord] none).1.seats = [dupSeat1, dupSeat2]
    ∧ pairwiseDistinctLogins
        ((aggregateSeatsData true nullTeamApi 0 [dupRecord] none).1.seats) = false := by
  exact ⟨by decide, by decide⟩

/-- C3 amended: for every input of two or more records, the aggregated seat
list has pairwise-distinct `assignee.login` values and each surviving seat is
the first occurrence of its login in the flattened, filtered sequence; a
single-record input keeps its (filtered) seat list without deduplication. -/
theorem multiRecord_dedup (envOk : Bool) (api : TeamApi) (now : Int)
    (d0 d1 : CopilotSeatsData) (rest : List CopilotSeatsData)
    (tf : Option (List String)) :
    pairwiseDistinctLogins
        ((aggregateSeatsData envOk api now (d0 :: d1 :: rest) tf).1.seats) = true
    ∧ ∀ s ∈ (aggregateSeatsData envOk api now (d0 :: d1 :: rest) tf).1.seats,
        (applyTeamFilter envOk api
            ((d0 :: d1 :: rest).flatMap CopilotSeatsData.seats) tf).find?
          (fun u => u.assignee.login == s.assignee.login) = some s := by
  have hseats : (aggregateSeatsData envOk api now (d0 :: d1 :: rest) tf).1.seats
      = dedupByLogin (applyTeamFilter envOk api
          ((d0 :: d1 :: rest).flatMap CopilotSeatsData.seats) tf) := by
    rw [aggregate_multi_eq]
  constructor
  · rw [hseats, pairwiseDistinctLogins_iff]
    exact pairwise_dedupFold _ [] List.Pairwise.nil
  · intro s hs
    rw [hseats] at hs
    rcases mem_dedupFold _ [] s hs with hmem | ⟨_, hfind⟩
    · simp at hmem
    · exact hfind

/-- Witness for `multiRecord_dedup` at a concrete two-record input. -/
theorem multiRecord_dedup_witness :
    pairwiseDistinctLogins
        ((aggregateSeatsData true nullTeamApi 0 [dupRecord, dupRecord] none).1.seats) = true :=
  (multiRecord_dedup true nullTeamApi 0 dupRecord dupRecord [] none).1

/-- C6: on a fetch that retrieves all pages successfully, every returned
page-record carries the same `total_active_seats`, equal to the
activity-window count over the seats of all pages combined. -/
theorem totalActive_global (ent org : Option String) (pages : List ApiSeatsPage)
    (now : Int) (r r' : CopilotSeatsData)
    (hr : r ∈ getDataFromApiRecords ent org pages now)
    (hr' : r' ∈ getDataFromApiRecords ent org pages now) :
    r.total_active_seats
        = some (countActiveSeats
            ((getDataFromApiRecords ent org pages now).flatMap CopilotSeatsData.seats) now)
    ∧ r.total_active_seats = r'.total_active_seats := by
  simp only [getDataFromApiRecords] at hr hr' ⊢
  obtain ⟨a, ha, rfl⟩ := List.mem_map.mp hr
  obtain ⟨a', ha', rfl⟩ := List.mem_map.mp hr'
  exact ⟨by rw [flatMap_seats_map_tas], rfl⟩

/-- Witness for `totalActive_global` on a concrete one-page fetch. -/
theorem totalActive_global_witness :
    (apiRecord1 ∈ getDataFromApiRecords (some "corp") none [apiPage1] 0)
    ∧ apiRecord1.total_active_seats
        = some (countActiveSeats
            ((getDataFromApiRecords (some "corp") none [apiPage1] 0).flatMap
              CopilotSeatsData.seats) 0) :=
  ⟨by decide,
   (totalActive_global (some "corp") none [apiPage1] 0 apiRecord1 apiRecord1
      (by decide) (by decide)).1⟩

/-- C7 counterexample: aggregating a legacy record whose `total_active_seats`
is absent changes that input record in place — the input array is not
unchanged after aggregation. -/
theorem aggregate_mutation_counterexample :
    legacyRecord.total_active_seats = none
    ∧ (aggregateSeatsData true nullTeamApi 0 [legacyRecord] none).2 ≠ [legacyRecord] := by
  exact ⟨rfl, by decide⟩

/-- C7 amended: aggregation mutates its input only through the
backwards-compatibility backfill: on empty input, or when the first record's
`total_active_seats` is present, the input records are unchanged after the
call; when it is absent, the post-call input differs exactly in that the first
record's `total_active_seats` is set to the activity-window count of its own
seats. -/
theorem aggregate_mutation_spec (envOk : Bool) (api : TeamApi) (now : Int)
    (data : List CopilotSeatsData) (tf : Option (List String)) :
    (data = [] → (aggregateSeatsData envOk api now data tf).2 = data)
    ∧ (∀ d rest, data = d :: rest → d.total_active_seats ≠ none →
        (aggregateSeatsData envOk api now data tf).2 = data)
    ∧ (∀ d rest, data = d :: rest → d.total_active_seats = none →
        (aggregateSeatsData envOk api now data tf).2
          = { d with total_active_seats := some (countActiveSeats d.seats now) } :: rest) := by
  refine ⟨?_, ?_, ?_⟩
  · rintro rfl
    rw [aggregateSeatsData_snd]
    rfl
  · rintro d rest rfl hne
    rw [aggregateSeatsData_snd]
    cases h : d.total_active_seats with
    | none => exact absurd h hne
    | some n => simp [backfillFirst, h]
  · rintro d rest rfl h
    rw [aggregateSeatsData_snd]
    simp [backfillFirst, h]

/-- Witness for `aggregate_mutation_spec`: the backfill at the legacy record. -/
theorem aggregate_mutation_spec_witness :
    (aggregateSeatsData true nullTeamApi 0 [legacyRecord] none).2
      = [{ legacyRecord with total_active_seats := some 1 }] := by
  have h := (aggregate_mutation_spec true nullTeamApi 0 [legacyRecord] none).2.2
    legacyRecord [] rfl rfl
  rw [h]
  decide

/-- C2: the activity classification returns true iff `last_activity_at` is
present and is at or after the instant exactly 30 days before the reference
instant; a missing timestamp is always classified inactive. -/
theorem isActiveSeat_spec (seat : SeatAssignment) (now : Int) :
    isActiveSeat seat now = true ↔
      ∃ t, seat.last_activity_at = some t ∧ now - 30 * msPerDay ≤ t := by
  cases h : seat.last_activity_at with
  | none => simp [isActiveSeat, h]
  | some t => simp [isActiveSeat, h]

/-- C4 counterexample: a seat whose `assigning_team.name` is present (the
empty string) and a member of the requested set is nevertheless not returned —
JavaScript truthiness makes the tier-1 predicate reject the empty name, so the
filter falls through to tier 2 and yields `[]` instead of exactly the matching
seats. -/
theorem directMatch_counterexample :
    emptyNameSeat.assigning_team = some { name := "", id := none, parent := none }
    ∧ "" ∈ [""]
    ∧ [emptyNameSeat].filter
        (fun s => match s.assigning_team with
          | some t => List.contains [""] t.name
          | none => false) = [emptyNameSeat]
    ∧ filterSeatsByTeam true nullTeamApi [emptyNameSeat] [""] = [] := by
  refine ⟨rfl, by decide, by decide, by decide⟩

/-- C4 amended: if at least one seat has a non-empty `assigning_team.name`
that is a member of the requested set, the team filter returns exactly the
seats whose non-empty `assigning_team.name` is in the requested set, for every
environment state and membership collaborator — so the tier-2 lookup is never
consulted. -/
theorem directMatch_filter (envOk : Bool) (api : TeamApi)
    (seats : List SeatAssignment) (tf : List String)
    (h : ∃ s ∈ seats, seatHasMatchingTeam tf s = true) :
    filterSeatsByTeam envOk api seats tf = seats.filter (seatHasMatchingTeam tf) := by
  obtain ⟨s, hs, hp⟩ := h
  have hmem : s ∈ seats.filter (seatHasMatchingTeam tf) :=
    List.mem_filter.mpr ⟨hs, hp⟩
  have hpos : 0 < (seats.filter (seatHasMatchingTeam tf)).length :=
    List.length_pos.mpr (fun hnil => by simp [hnil] at hmem)
  simp [filterSeatsByTeam, hpos]

/-- Witness for `directMatch_filter` at a concrete seat list. -/
theorem directMatch_filter_witness :
    (∃ s ∈ [seatNoTeam, seatTeamX], seatHasMatchingTeam ["X"] s = true)
    ∧ filterSeatsByTeam false nullTeamApi [seatNoTeam, seatTeamX] ["X"]
        = [seatNoTeam, seatTeamX].filter (seatHasMatchingTeam ["X"]) :=
  ⟨⟨seatTeamX, by decide, by decide⟩,
   directMatch_filter false nullTeamApi [seatNoTeam, seatTeamX] ["X"]
     ⟨seatTeamX, by decide, by decide⟩⟩

/-- C5: with a non-empty requested team set, when no seat directly matches and
the resolved membership set is empty (as when every membership lookup fails),
the team filter returns the empty list — never the unfiltered input. -/
theorem teamFilter_never_noop (envOk : Bool) (api : TeamApi)
    (seats : List SeatAssignment) (tf : List String)
    (_hne : tf ≠ [])
    (hnodirect : seats.filter (seatHasMatchingTeam tf) = [])
    (hempty : resolvedMembers api tf = []) :
    filterSeatsByTeam envOk api seats tf = [] := by
  cases envOk <;> simp [filterSeatsByTeam, hnodirect, hempty]

/-- Witness for `teamFilter_never_noop` at a concrete seat list. -/
theorem teamFilter_never_noop_witness :
    (["X"] ≠ ([] : List String)
      ∧ [seatNoTeam].filter (seatHasMatchingTeam ["X"]) = []
      ∧ resolvedMembers nullTeamApi ["X"] = [])
    ∧ filterSeatsByTeam true nullTeamApi [seatNoTeam] ["X"] = [] :=
  ⟨⟨by decide, by decide, by decide⟩,
   teamFilter_never_noop true nullTeamApi [seatNoTeam] ["X"]
     (by decide) (by decide) (by decide)⟩

/-- C8 counterexample: a store query that succeeds with zero records produces
a success result carrying the zero-seat aggregate — not the "no data" error
the claim requires (the JavaScript guard `!data.response` does not fire on an
empty array, which is truthy). -/
theorem emptyQuery_counterexample :
    (getCopilotSeatsFromDatabase true nullTeamApi 0
        (ServerActionResponse.ok []) []).isError = false
    ∧ getCopilotSeatsFromDatabase true nullTeamApi 0
        (ServerActionResponse.ok []) [] = ServerActionResponse.ok emptyAggregate := by
  exact ⟨rfl, rfl⟩

/-- C8 amended: a store query that completes successfully with zero records
yields a success result carrying the zero-seat aggregate; the "No data found"
error is produced exactly when the store query itself fails. -/
theorem emptyQuery_behavior (envOk : Bool) (api : TeamApi) (now : Int)
    (team : List String) (msgs : List String) :
    getCopilotSeatsFromDatabase envOk api now (ServerActionResponse.ok []) team
        = ServerActionResponse.ok emptyAggregate
    ∧ getCopilotSeatsFromDatabase envOk api now (ServerActionResponse.error msgs) team
        = ServerActionResponse.error ["No data found"] :=
  ⟨rfl, rfl⟩

/-- C10: when the underlying seat retrieval returns an error, the
seats-management operation swallows it into a success whose response is the
empty object (modelled as `none`), while the main seat-retrieval operation
propagates the error result unchanged. -/
theorem management_swallows_error (envOk : Bool) (api : TeamApi) (now : Int)
    (qr : ServerActionResponse (List CopilotSeatsData)) (team : List String)
    (h : (getCopilotSeatsFromDatabase envOk api now qr team).isError = true) :
    getCopilotSeatsManagement envOk api now qr team = ServerActionResponse.ok none
    ∧ getCopilotSeats envOk api now qr team
        = getCopilotSeatsFromDatabase envOk api now qr team := by
  refine ⟨?_, rfl⟩
  unfold getCopilotSeatsManagement
  cases hq : getCopilotSeatsFromDatabase envOk api now qr team with
  | ok d => rw [hq] at h; simp [ServerActionResponse.isError] at h
  | error msgs => rfl

/-- Witness for `management_swallows_error` at a concrete failing query. -/
theorem management_swallows_error_witness :
    ((getCopilotSeatsFromDatabase true nullTeamApi 0
        (ServerActionResponse.error ["boom"]) []).isError = true)
    ∧ getCopilotSeatsManagement true nullTeamApi 0
        (ServerActionResponse.error ["boom"]) [] = ServerActionResponse.ok none :=
  ⟨by decide,
   (management_swallows_error true nullTeamApi 0
      (ServerActionResponse.error ["boom"]) [] (by decide)).1⟩

/-- `lexLe` is total. -/
theorem lexLe_total (a b : List Char) (h : lexLe a b = false) : lexLe b a = true := by
  induction a generalizing b with
  | nil => simp [lexLe] at h
  | cons x xs ih =>
      cases b with
      | nil => rfl
      | cons y ys =>
          by_cases h1 : x.toNat < y.toNat
          · rw [lexLe, if_pos h1] at h
            exact absurd h (by simp)
          · by_cases h2 : y.toNat < x.toNat
            · rw [lexLe, if_pos h2]
            · rw [lexLe, if_neg h1, if_neg h2] at h
              rw [lexLe, if_neg h2, if_neg h1]
              exact ih ys h

/-- `nameLeb` is total. -/
theorem nameLeb_total (a b : String) (h : nameLeb a b = false) : nameLeb b a = true :=
  lexLe_total a.data b.data h

/-- Inserting into an ascending-by-name list keeps it ascending. -/
theorem sortedByName_insert (t : TeamRef) (l : List TeamRef)
    (h : sortedByName l = true) : sortedByName (insertTeamByName t l) = true := by
  induction l with
  | nil => rfl
  | cons u us ih =>
      rw [insertTeamByName]
      by_cases hle : nameLeb t.name u.name = true
      · rw [if_pos hle]
        simp only [sortedByName, Bool.and_eq_true]
        exact ⟨hle, h⟩
      · rw [if_neg hle]
        have hut : nameLeb u.name t.name = true :=
          nameLeb_total t.name u.name (Bool.not_eq_true _ ▸ hle)
        cases us with
        | nil =>
            simp only [insertTeamByName, sortedByName, Bool.and_eq_true]
            exact ⟨hut, trivial⟩
        | cons v vs =>
            have huv : nameLeb u.name v.name = true := by
              simp only [sortedByName, Bool.and_eq_true] at h
              exact h.1
            have hsv : sortedByName (v :: vs) = true := by
              simp only [sortedByName, Bool.and_eq_true] at h
              exact h.2
            have hins := ih hsv
            rw [insertTeamByName]
            by_cases h2 : nameLeb t.name v.name = true
            · rw [if_pos h2]
              simp only [sortedByName, Bool.and_eq_true]
              exact ⟨hut, h2, hsv⟩
            · rw [if_neg h2]
              rw [insertTeamByName, if_neg h2] at hins
              simp only [sortedByName, Bool.and_eq_true]
              exact ⟨huv, hins⟩

/-- The by-name insertion sort produces an ascending list. -/
theorem sortedByName_sortTeams (l : List TeamRef) :
    sortedByName (sortTeamsByName l) = true := by
  induction l with
  | nil => rfl
  | cons t l ih =>
      have h := sortedByName_insert t (sortTeamsByName l) ih
      simpa [sortTeamsByName] using h

/-- The position counters of `List.enumFrom` are strictly increasing. -/
theorem enumFrom_pairwise_fst {α : Type _} (n : Nat) (l : List α) :
    List.Pairwise (fun p q => p.1 < q.1) (List.enumFrom n l) := by
  induction l generalizing n with
  | nil => simp
  | cons a l ih =>
      rw [List.enumFrom_cons]
      refine List.Pairwise.cons ?_ (ih (n + 1))
      rintro ⟨i, x⟩ hmem
      exact Nat.lt_of_lt_of_le (Nat.lt_succ_self n) (List.mem_enumFrom hmem).1

/-- No kept team of `uniqueTeams` matches a later kept team. -/
theorem uniqueTeams_pairwise (l : List TeamRef) :
    List.Pairwise (fun a b => teamDedupMatch a b = false) (uniqueTeams l) := by
  unfold uniqueTeams
  rw [List.pairwise_map]
  have h0 : List.Pairwise (fun p q : Nat × TeamRef => p.1 < q.1) l.enum :=
    enumFrom_pairwise_fst 0 l
  have h1 : List.Pairwise (fun p q : Nat × TeamRef => p.1 < q.1)
      (l.enum.filter (fun p => l.findIdx (fun t => teamDedupMatch t p.2) == p.1)) :=
    List.Pairwise.sublist (List.filter_sublist _) h0
  refine List.Pairwise.imp_of_mem ?_ h1
  intro p q hp hq hlt
  obtain ⟨i, a⟩ := p
  obtain ⟨j, b⟩ := q
  have hq' := List.mem_filter.mp hq
  have hp' := List.mem_filter.mp hp
  have hidx : l.findIdx (fun t => teamDedupMatch t b) = j := by
    have := hq'.2
    simpa using this
  obtain ⟨hlen, hget⟩ := List.getElem?_eq_some_iff.mp
    (List.mem_enum_iff_getElem?.mp hp'.1)
  have hlow := List.not_of_lt_findIdx (p := fun t => teamDedupMatch t b) (i := i)
    (by rw [hidx]; exact hlt)
  simpa [hget] using hlow

/-- C9 counterexample: on the live-API path the catalog keeps collection
order — team `b` collected before team `a` comes out first — so the result is
not sorted by name as the claim requires of both paths. -/
theorem teams_sort_counterexample :
    getAllCopilotSeatsTeamsFromApi [[seatTeamB, seatTeamA2]] [] false = [teamNB, teamNA]
    ∧ sortedByName (getAllCopilotSeatsTeamsFromApi [[seatTeamB, seatTeamA2]] [] false)
        = false :=
  ⟨by decide, by decide⟩

/-- C9 amended: the historical-store path returns the store's distinct teams
sorted ascending by name (empty name first); the live-API path returns the
collected teams with duplicates removed under the key "id when the id is
truthy, else name" — no kept team matches a later kept one — as a subsequence
of the collected list (first occurrences, collection order), without sorting. -/
theorem teams_catalog_spec (resources : List TeamRef)
    (pages : List (List SeatAssignment)) (fallbackTeams : List TeamRef)
    (isEnterprise : Bool) :
    sortedByName (getAllCopilotSeatsTeamsFromDatabase resources) = true
    ∧ List.Pairwise (fun a b => teamDedupMatch a b = false)
        (getAllCopilotSeatsTeamsFromApi pages fallbackTeams isEnterprise)
    ∧ (getAllCopilotSeatsTeamsFromApi pages fallbackTeams isEnterprise).Sublist
        (collectedTeams pages fallbackTeams isEnterprise) := by
  refine ⟨sortedByName_sortTeams resources, uniqueTeams_pairwise _, ?_⟩
  unfold getAllCopilotSeatsTeamsFromApi uniqueTeams
  have h := List.Sublist.map Prod.snd
    (List.filter_sublist (l := (collectedTeams pages fallbackTeams isEnterprise).enum)
      (p := fun p => (collectedTeams pages fallbackTeams isEnterprise).findIdx
        (fun t => teamDedupMatch t p.2) == p.1))
  simpa [List.enum_map_snd] using h

end CopilotSeats
